import Mathlib

/-!
Verification development for the `sigmulator` combat simulator
(`src/combat_simulator/combat_simulator.py`).

The Python code draws die outcomes from a uniform RNG.  We embed the
randomness as an explicit stream of integer die outcomes (`DiceStream`):
each call of the dice engine consumes a prefix of the stream.  All
counting, state mutation and control flow is translated directly from the
source; theorems quantify over all streams, hence over all possible RNG
behaviours.  Streams whose entries lie in 1..6 (`ValidStream`) model the
real generator `rng.integers(1, 7, ...)`.

Python integers are embedded as `Int`; Python floor division `//` and
modulo `%` become `Int.fdiv` / `Int.fmod`.  A Python call that raises
(`rng.integers` with a negative size) is embedded as `none`.  The order
draws of `combat_simulation` (`np.random.random()`, uniform on [0,1)) are
embedded as an explicit sequence of rationals.
-/

namespace CombatSimulator

/-- The `RollDirection` enum of the source: MATCH counts dice `>= target`,
ABOVE counts dice `> target`, BELOW counts dice `< target`. -/
inductive RollDirection where
  | MATCH
  | ABOVE
  | BELOW

/-- The stream of die outcomes consumed by successive dice rolls: `vals` is
the infinite sequence of outcomes the RNG would produce, `pos` the number
already consumed. -/
structure DiceStream where
  vals : Nat → Int
  pos : Nat

/-- The next `n` die outcomes of the stream (the batch `rng.integers(1, 7,
size=n)` would return). -/
def DiceStream.take (s : DiceStream) (n : Nat) : List Int :=
  (List.range n).map (fun i => s.vals (s.pos + i))

/-- The stream after consuming `n` die outcomes. -/
def DiceStream.advance (s : DiceStream) (n : Nat) : DiceStream :=
  DiceStream.mk s.vals (s.pos + n)

/-- A stream whose entries are genuine die faces 1..6, as produced by
`rng.integers(1, 7, ...)`. -/
def ValidStream (s : DiceStream) : Prop :=
  ∀ i : Nat, 1 ≤ s.vals i ∧ s.vals i ≤ 6

/-- Counting step of `roll_dice`: how many rolls of the batch satisfy the
comparison selected by `direction`. -/
def countHits (rolls : List Int) (target : Int) (direction : RollDirection) : Nat :=
  match direction with
  | RollDirection.MATCH => (rolls.filter (fun r => target ≤ r)).length
  | RollDirection.ABOVE => (rolls.filter (fun r => target < r)).length
  | RollDirection.BELOW => (rolls.filter (fun r => r < target)).length

/-- `roll_dice` with `critical_count=False`: consumes `num_dice` outcomes
and returns the hit count.  A negative `num_dice` makes
`rng.integers(1, 7, size=num_dice)` raise, embedded as `none`. -/
def roll_dice (num_dice : Int) (target : Int) (direction : RollDirection)
    (s : DiceStream) : Option (Int × DiceStream) :=
  if num_dice < 0 then none
  else
    some ((countHits (s.take num_dice.toNat) target direction : Int),
      s.advance num_dice.toNat)

/-- `roll_dice` with `critical_count=True`: additionally counts dice
`>= critical_threshold` from the same batch and returns both counts. -/
def roll_dice_crit (num_dice : Int) (target : Int) (direction : RollDirection)
    (critical_threshold : Int) (s : DiceStream) :
    Option ((Int × Int) × DiceStream) :=
  if num_dice < 0 then none
  else
    some (((countHits (s.take num_dice.toNat) target direction : Int),
      (countHits (s.take num_dice.toNat) critical_threshold RollDirection.MATCH : Int)),
      s.advance num_dice.toNat)

/-- The `Weapon` dataclass of the source. -/
structure Weapon where
  name : String
  attacks : Int
  to_hit : Int
  to_wound : Int
  rend : Int
  damage : Int
  companion : Bool
  crit_threshold : Int
  crit_mortals : Bool
  crit_explode : Bool

/-- The `Unit` dataclass of the source.  `total_wounds` is the field set by
`__post_init__` (and later mutated by `take_damage`). -/
structure Unit where
  name : String
  models : Int
  wounds_per_model : Int
  save : Int
  ward_save : Int
  ethereal : Bool
  beacon_of_protection : Bool
  weapons : List Weapon
  has_leader : Bool
  unit_alive : Bool
  total_wounds : Int

/-- Construction of a `Unit` through the dataclass constructor followed by
`__post_init__`: `unit_alive` defaults to `True` and `total_wounds` is set
to `models * wounds_per_model`. -/
def mkUnit (name : String) (models wounds_per_model save ward_save : Int)
    (ethereal beacon_of_protection : Bool) (weapons : List Weapon)
    (has_leader : Bool) : Unit :=
  Unit.mk name models wounds_per_model save ward_save ethereal
    beacon_of_protection weapons has_leader true
    (models * wounds_per_model)

/-- Mode of a damage tuple produced by `deal_damage`: the third component
of the Python tuple, `"normal"` or `"mortal"`. -/
inductive DamageType where
  | normal
  | mortal

/-- A damage tuple `(damage, rend, damage_type)` as produced by
`deal_damage`. -/
structure DamageEvent where
  damage : Int
  rend : Int
  dtype : DamageType

/-- Save stage of `Unit.take_damage` (source lines 63..68): skipped when
`mortal`; an ethereal unit rolls below its unmodified save, otherwise the
roll is below `save + rend`. -/
def Unit.save_stage (u : Unit) (damage rend : Int) (mortal : Bool)
    (s : DiceStream) : Option (Int × DiceStream) :=
  if mortal then some (damage, s)
  else if u.ethereal then roll_dice damage u.save RollDirection.BELOW s
  else roll_dice damage (u.save + rend) RollDirection.BELOW s

/-- Ward stage of `Unit.take_damage` (source lines 73..74): when
`ward_save` is truthy (non-zero) and the ward is not ignored, roll below
the ward threshold with the damage that passed the save as the dice
pool. -/
def Unit.ward_stage (u : Unit) (w1 : Int) (ward_ignore : Bool)
    (s1 : DiceStream) : Option (Int × DiceStream) :=
  if u.ward_save ≠ 0 ∧ ward_ignore = false then
    roll_dice w1 u.ward_save RollDirection.BELOW s1
  else some (w1, s1)

/-- Dice stages of `Unit.take_damage` (source lines 63..77): save stage,
ward stage, then the beacon-of-protection reduction (flat −1 floored at
0).  Returns the final `wounds_through_save` and the remaining stream. -/
def Unit.unsaved_wounds (u : Unit) (damage rend : Int)
    (mortal ward_ignore : Bool) (s : DiceStream) : Option (Int × DiceStream) :=
  match u.save_stage damage rend mortal s with
  | none => none
  | some (w1, s1) =>
    match u.ward_stage w1 ward_ignore s1 with
    | none => none
    | some (w2, s2) =>
      some ((if u.beacon_of_protection then max 0 (w2 - 1) else w2), s2)

/-- State-update block of `Unit.take_damage` (source lines 79..87):
subtract the unsaved wounds, recompute the model count with Python floor
division and modulo, clamp it at 0, and clear `unit_alive` when it reaches
0. -/
def Unit.apply_unsaved (u : Unit) (wts : Int) : Unit :=
  let total_wounds := u.total_wounds - wts
  let full_models := total_wounds.fdiv u.wounds_per_model
  let has_partial_model : Int :=
    if 0 < total_wounds.fmod u.wounds_per_model then 1 else 0
  let models := max 0 (full_models + has_partial_model)
  Unit.mk u.name models u.wounds_per_model u.save u.ward_save u.ethereal
    u.beacon_of_protection u.weapons u.has_leader
    (if models ≤ 0 then false else u.unit_alive) total_wounds

/-- `Unit.take_damage`: runs the dice stages, mutates the unit, and returns
the unsaved amount together with the updated unit and stream. -/
def Unit.take_damage (u : Unit) (damage rend : Int) (mortal ward_ignore : Bool)
    (s : DiceStream) : Option (Int × Unit × DiceStream) :=
  match u.unsaved_wounds damage rend mortal ward_ignore s with
  | none => none
  | some (wts, s2) => some (wts, u.apply_unsaved wts, s2)

/-- Modelled from the claim for the refinement comparison: the variant of
`take_damage` that skips the ward stage entirely (save roll and beacon
reduction unchanged, no ward roll, no ward dice consumed). -/
def Unit.take_damage_skipping_ward (u : Unit) (damage rend : Int)
    (mortal : Bool) (s : DiceStream) : Option (Int × Unit × DiceStream) :=
  match u.save_stage damage rend mortal s with
  | none => none
  | some (w1, s1) =>
    let wts := if u.beacon_of_protection then max 0 (w1 - 1) else w1
    some (wts, u.apply_unsaved wts, s1)

/-- Attack pool of one weapon (source lines 98..100):
`weapon.attacks * self.models`, plus the leader bonus attack when the unit
has a leader and the weapon is not a companion weapon. -/
def weapon_attack_count (u : Unit) (w : Weapon) : Int :=
  w.attacks * u.models + (if u.has_leader ∧ w.companion = false then 1 else 0)

/-- Hit sequence of `Unit.deal_damage` (source lines 102..112): the hit
roll with the weapon's crit mode applied.  Returns the landed-hits pool
for the wound roll, the mortal damage tuples emitted right away by the
crit-mortals mode, and the remaining stream. -/
def hit_stage (u : Unit) (w : Weapon) (hit_modifier : Int) (s : DiceStream) :
    Option (Int × List DamageEvent × DiceStream) :=
  if w.crit_explode then
    match roll_dice_crit (weapon_attack_count u w) (w.to_hit - hit_modifier)
        RollDirection.MATCH w.crit_threshold s with
    | none => none
    | some ((hits, crits), s1) => some (hits + crits, [], s1)
  else if w.crit_mortals then
    match roll_dice_crit (weapon_attack_count u w) (w.to_hit - hit_modifier)
        RollDirection.MATCH w.crit_threshold s with
    | none => none
    | some ((hits, crits), s1) =>
      some (hits - crits,
        (if 0 < crits then
          [DamageEvent.mk (crits * w.damage) 0 DamageType.mortal]
        else []), s1)
  else
    match roll_dice (weapon_attack_count u w) (w.to_hit - hit_modifier)
        RollDirection.MATCH s with
    | none => none
    | some (hits, s1) => some (hits, [], s1)

/-- Per-weapon body of `Unit.deal_damage` (source lines 97..120): compute
the attack pool, run the hit roll with the weapon's crit mode, run the
wound roll, and emit the damage tuples of this weapon in order. -/
def Unit.deal_damage_weapon (u : Unit) (w : Weapon)
    (hit_modifier wound_modifier : Int) (s : DiceStream) :
    Option (List DamageEvent × DiceStream) :=
  match hit_stage u w hit_modifier s with
  | none => none
  | some (attacks_landed, mortal_events, s1) =>
    match roll_dice attacks_landed (w.to_wound - wound_modifier)
        RollDirection.MATCH s1 with
    | none => none
    | some (wounds_landed, s2) =>
      some (mortal_events ++
        (if 0 < wounds_landed then
          [DamageEvent.mk (wounds_landed * w.damage) w.rend DamageType.normal]
        else []), s2)

/-- Loop of `Unit.deal_damage` over the weapon list, concatenating each
weapon's damage tuples in order. -/
def deal_damage_go (u : Unit) (hit_modifier wound_modifier : Int) :
    List Weapon → DiceStream → Option (List DamageEvent × DiceStream)
  | [], s => some ([], s)
  | w :: ws, s =>
    match u.deal_damage_weapon w hit_modifier wound_modifier s with
    | none => none
    | some (evs, s1) =>
      match deal_damage_go u hit_modifier wound_modifier ws s1 with
      | none => none
      | some (rest, s2) => some (evs ++ rest, s2)

/-- `Unit.deal_damage`: the attack process for all weapons of the unit,
returning the list of damage tuples. -/
def Unit.deal_damage (u : Unit) (hit_modifier wound_modifier : Int)
    (s : DiceStream) : Option (List DamageEvent × DiceStream) :=
  deal_damage_go u hit_modifier wound_modifier u.weapons s

/-- Application of a damage list to a receiving unit, as done by the loops
of `combat_simulation`: mortal tuples call `take_damage(damage,
mortal=True)` (rend 0, ward not ignored), normal tuples pass their rend. -/
def apply_damage_list : Unit → List DamageEvent → DiceStream →
    Option (Unit × DiceStream)
  | t, [], s => some (t, s)
  | t, ev :: rest, s =>
    let step :=
      match ev.dtype with
      | DamageType.mortal => t.take_damage ev.damage 0 true false s
      | DamageType.normal => t.take_damage ev.damage ev.rend false false s
    match step with
    | none => none
    | some (_, t1, s1) => apply_damage_list t1 rest s1

/-- One side's attack inside a trial: if the striker is alive it resolves
its attacks and the resulting damage list is applied to the receiver. -/
def half_exchange (striker receiver : Unit) (hit_modifier wound_modifier : Int)
    (s : DiceStream) : Option (Unit × DiceStream) :=
  if striker.unit_alive then
    match striker.deal_damage hit_modifier wound_modifier s with
    | none => none
    | some (dl, s1) => apply_damage_list receiver dl s1
  else some (receiver, s)

/-- Fresh per-trial copy of a template unit, as built inline by
`combat_simulation`: all template fields are passed through the
constructor, so `unit_alive` resets to `True` and `total_wounds` is
recomputed. -/
def freshCopy (u : Unit) : Unit :=
  mkUnit u.name u.models u.wounds_per_model u.save u.ward_save u.ethereal
    u.beacon_of_protection u.weapons u.has_leader

/-- One trial of `combat_simulation`: draw the order value, decide
inversion by `order_roll < order_inversion_probability`, run the two half
exchanges, and record both terminal `total_wounds` values plus the
inversion flag. -/
def run_trial (attacker defender : Unit) (order_inversion_probability : ℚ)
    (attacker_hit_modifier attacker_wound_modifier
      defender_hit_modifier defender_wound_modifier : Int)
    (order_roll : ℚ) (s : DiceStream) :
    Option (Int × Int × Bool × DiceStream) :=
  let att_copy := freshCopy attacker
  let def_copy := freshCopy defender
  if order_roll < order_inversion_probability then
    match half_exchange def_copy att_copy defender_hit_modifier
        defender_wound_modifier s with
    | none => none
    | some (att1, s1) =>
      match half_exchange att1 def_copy attacker_hit_modifier
          attacker_wound_modifier s1 with
      | none => none
      | some (def1, s2) => some (att1.total_wounds, def1.total_wounds, true, s2)
  else
    match half_exchange att_copy def_copy attacker_hit_modifier
        attacker_wound_modifier s with
    | none => none
    | some (def1, s1) =>
      match half_exchange def1 att_copy defender_hit_modifier
          defender_wound_modifier s1 with
      | none => none
      | some (att1, s2) => some (att1.total_wounds, def1.total_wounds, false, s2)

/-- Trial loop of `combat_simulation`, trial index `i` onward for `n`
trials: returns the two lists of recorded terminal wounds and the count of
inverted trials.  `order_draws i` is the value `np.random.random()` returns
in trial `i`. -/
def sim_trials (attacker defender : Unit) (order_inversion_probability : ℚ)
    (attacker_hit_modifier attacker_wound_modifier
      defender_hit_modifier defender_wound_modifier : Int)
    (order_draws : Nat → ℚ) :
    Nat → Nat → DiceStream → Option (List Int × List Int × Nat)
  | _, 0, _ => some ([], [], 0)
  | i, Nat.succ n, s =>
    match run_trial attacker defender order_inversion_probability
        attacker_hit_modifier attacker_wound_modifier
        defender_hit_modifier defender_wound_modifier (order_draws i) s with
    | none => none
    | some (aw, dw, inverted, s1) =>
      match sim_trials attacker defender order_inversion_probability
          attacker_hit_modifier attacker_wound_modifier
          defender_hit_modifier defender_wound_modifier order_draws
          (i + 1) n s1 with
      | none => none
      | some (awr, dwr, invr) =>
        some (aw :: awr, dw :: dwr, (if inverted then 1 else 0) + invr)

/-- `combat_simulation`: runs `iterations` independent trials on fresh
copies of the templates and returns the recorded terminal-wounds series of
both units together with `inverted_fights`.  (The Python function finally
returns `np.mean` of each series; the floating-point averaging is outside
the embedding, the recorded series and the inversion count are returned
instead.) -/
def combat_simulation (attacker defender : Unit)
    (order_inversion_probability : ℚ) (iterations : Nat)
    (attacker_hit_modifier attacker_wound_modifier
      defender_hit_modifier defender_wound_modifier : Int)
    (order_draws : Nat → ℚ) (s : DiceStream) :
    Option (List Int × List Int × Nat) :=
  sim_trials attacker defender order_inversion_probability
    attacker_hit_modifier attacker_wound_modifier
    defender_hit_modifier defender_wound_modifier order_draws 0 iterations s

/-- Constant stream: every die shows `k`. -/
def sAll (k : Int) : DiceStream := DiceStream.mk (fun _ => k) 0

/-- A plain unit: 1 model, 1 wound, save 4, no ward (sentinel 7). -/
def uPlain : Unit := mkUnit "plain" 1 1 4 7 false false [] true

/-- A unit with a real ward save of 5. -/
def uWard5 : Unit := mkUnit "ward" 1 1 4 5 false false [] true

/-- A unit with ward save 5 and the beacon-of-protection aura. -/
def uWardBeacon : Unit := mkUnit "wardbeacon" 1 1 4 5 false true [] true

/-- A basic weapon: 1 attack, hit 4, wound 4, rend 0, damage 1. -/
def wBasic : Weapon := Weapon.mk "basic" 1 4 4 0 1 false 6 false false

/-- An attacker template wielding `wBasic`. -/
def uAtt : Unit := mkUnit "att" 1 1 4 0 false false [wBasic] true

/-- A defender template with save 7 (never saves) and no ward. -/
def uDef : Unit := mkUnit "def" 1 2 7 0 false false [] true

/-- A weaponless 2-model template used to exercise the trial loop. -/
def uNW : Unit := mkUnit "nw" 2 1 4 7 false false [] true

/-- A crit-mortals weapon: 1 attack, hit 4, wound 4, damage 2, crit 6. -/
def wCM : Weapon := Weapon.mk "cm" 1 4 4 0 2 false 6 true false

/-- A unit wielding the crit-mortals weapon `wCM`. -/
def uCM : Unit := mkUnit "cmu" 1 1 4 7 false false [wCM] true

/-! ## Helper lemmas -/

theorem take_length (s : DiceStream) (n : Nat) : (s.take n).length = n := by
  simp [DiceStream.take]

theorem countHits_le_length (rolls : List Int) (target : Int)
    (d : RollDirection) : countHits rolls target d ≤ rolls.length := by
  cases d <;> simpa [countHits] using List.length_filter_le _ _

theorem countHits_below_all (rolls : List Int) (target : Int)
    (h : ∀ r ∈ rolls, r < target) :
    countHits rolls target RollDirection.BELOW = rolls.length := by
  simp only [countHits]
  rw [List.filter_eq_self.mpr]
  intro a ha
  simpa using h a ha

theorem valid_take_lt7 (s : DiceStream) (hs : ValidStream s) (n : Nat) :
    ∀ r ∈ s.take n, r < 7 := by
  intro r hr
  simp only [DiceStream.take, List.mem_map, List.mem_range] at hr
  obtain ⟨i, _, rfl⟩ := hr
  have := (hs (s.pos + i)).2
  omega

theorem valid_advance (s : DiceStream) (hs : ValidStream s) (n : Nat) :
    ValidStream (s.advance n) := fun i => hs i

theorem roll_dice_pos (num_dice target : Int) (d : RollDirection)
    (s : DiceStream) (h : 0 ≤ num_dice) :
    roll_dice num_dice target d s =
      some ((countHits (s.take num_dice.toNat) target d : Int),
        s.advance num_dice.toNat) := by
  unfold roll_dice
  rw [if_neg (by omega)]

theorem roll_dice_crit_pos (num_dice target critical_threshold : Int)
    (d : RollDirection) (s : DiceStream) (h : 0 ≤ num_dice) :
    roll_dice_crit num_dice target d critical_threshold s =
      some (((countHits (s.take num_dice.toNat) target d : Int),
        (countHits (s.take num_dice.toNat) critical_threshold
          RollDirection.MATCH : Int)),
        s.advance num_dice.toNat) := by
  unfold roll_dice_crit
  rw [if_neg (by omega)]

theorem roll_dice_some_inv {num_dice target : Int} {d : RollDirection}
    {s : DiceStream} {a : Int} {s' : DiceStream}
    (h : roll_dice num_dice target d s = some (a, s')) :
    0 ≤ num_dice ∧ a = (countHits (s.take num_dice.toNat) target d : Int) ∧
      s' = s.advance num_dice.toNat := by
  unfold roll_dice at h
  by_cases hn : num_dice < 0
  · rw [if_pos hn] at h
    exact absurd h (by simp)
  · rw [if_neg hn] at h
    refine ⟨by omega, ?_, ?_⟩ <;> simp_all

theorem roll_dice_crit_some_inv {num_dice target critical_threshold : Int}
    {d : RollDirection} {s : DiceStream} {a c : Int} {s' : DiceStream}
    (h : roll_dice_crit num_dice target d critical_threshold s =
      some ((a, c), s')) :
    0 ≤ num_dice ∧ a = (countHits (s.take num_dice.toNat) target d : Int) ∧
      c = (countHits (s.take num_dice.toNat) critical_threshold
        RollDirection.MATCH : Int) ∧
      s' = s.advance num_dice.toNat := by
  unfold roll_dice_crit at h
  by_cases hn : num_dice < 0
  · rw [if_pos hn] at h
    exact absurd h (by simp)
  · rw [if_neg hn] at h
    refine ⟨by omega, ?_, ?_, ?_⟩ <;> simp_all

/-! ## C3: dice-engine bounds and the zero-dice case -/

/-- C3: for every non-negative dice count, `roll_dice` returns a hit count
in `[0, count]` and (when requested) a crit count in `[0, count]`; with
count 0 both variants return exactly 0 hits and 0 crits and leave the
stream untouched (no dice are generated). -/
theorem roll_dice_bounds (num_dice target critical_threshold : Int)
    (d : RollDirection) (s : DiceStream) (hits crits h2 : Int)
    (s1 s2 : DiceStream) (hn : 0 ≤ num_dice)
    (hc : roll_dice_crit num_dice target d critical_threshold s =
      some ((hits, crits), s1))
    (hp : roll_dice num_dice target d s = some (h2, s2)) :
    (0 ≤ hits ∧ hits ≤ num_dice ∧ 0 ≤ crits ∧ crits ≤ num_dice ∧
      0 ≤ h2 ∧ h2 ≤ num_dice) ∧
    (roll_dice_crit 0 target d critical_threshold s = some ((0, 0), s) ∧
      roll_dice 0 target d s = some (0, s)) := by
  obtain ⟨-, ha, hcc, -⟩ := roll_dice_crit_some_inv hc
  obtain ⟨-, ha2, -⟩ := roll_dice_some_inv hp
  have key : ∀ (t : Int) (dd : RollDirection),
      ((countHits (s.take num_dice.toNat) t dd : Int)) ≤ num_dice := by
    intro t dd
    calc ((countHits (s.take num_dice.toNat) t dd : Int))
        ≤ ((s.take num_dice.toNat).length : Int) := by
          exact_mod_cast countHits_le_length _ _ _
      _ = num_dice := by rw [take_length]; omega
  have hb1 : hits ≤ num_dice := by rw [ha]; exact key _ _
  have hb2 : crits ≤ num_dice := by rw [hcc]; exact key _ _
  have hb3 : h2 ≤ num_dice := by rw [ha2]; exact key _ _
  refine ⟨⟨by simp [ha], hb1, by simp [hcc], hb2, by simp [ha2], hb3⟩, ?_, ?_⟩ <;>
    cases d <;> rfl

/-- C3 witness: two dice showing 6 against target 4 with crit threshold 6
give 2 hits and 2 crits, inside the bounds. -/
theorem roll_dice_bounds_witness :
    ((0:Int) ≤ 2 ∧ (2:Int) ≤ 2 ∧ (0:Int) ≤ 2 ∧ (2:Int) ≤ 2 ∧
      (0:Int) ≤ 2 ∧ (2:Int) ≤ 2) ∧
    (roll_dice_crit 0 4 RollDirection.MATCH 6 (sAll 6) = some ((0, 0), sAll 6) ∧
      roll_dice 0 4 RollDirection.MATCH (sAll 6) = some (0, sAll 6)) :=
  roll_dice_bounds 2 4 6 RollDirection.MATCH (sAll 6) 2 2 2
    ((sAll 6).advance 2) ((sAll 6).advance 2) (by decide) rfl rfl

/-! ## Stage lemmas for `take_damage` -/

theorem save_stage_nonneg {u : Unit} {damage rend : Int} {mortal : Bool}
    {s : DiceStream} {w1 : Int} {s1 : DiceStream} (hd : 0 ≤ damage)
    (h : u.save_stage damage rend mortal s = some (w1, s1)) : 0 ≤ w1 := by
  unfold Unit.save_stage at h
  cases mortal
  · by_cases he : u.ethereal = true
    · rw [if_neg (by simp), if_pos he] at h
      obtain ⟨-, rfl, -⟩ := roll_dice_some_inv h
      exact Int.natCast_nonneg _
    · rw [if_neg (by simp), if_neg he] at h
      obtain ⟨-, rfl, -⟩ := roll_dice_some_inv h
      exact Int.natCast_nonneg _
  · rw [if_pos rfl] at h
    obtain ⟨rfl, -⟩ : damage = w1 ∧ s = s1 := by simpa using h
    exact hd

theorem ward_stage_nonneg {u : Unit} {w1 : Int} {ward_ignore : Bool}
    {s1 : DiceStream} {w2 : Int} {s2 : DiceStream} (h1 : 0 ≤ w1)
    (h : u.ward_stage w1 ward_ignore s1 = some (w2, s2)) : 0 ≤ w2 := by
  unfold Unit.ward_stage at h
  by_cases hc : u.ward_save ≠ 0 ∧ ward_ignore = false
  · rw [if_pos hc] at h
    obtain ⟨-, rfl, -⟩ := roll_dice_some_inv h
    exact Int.natCast_nonneg _
  · rw [if_neg hc] at h
    obtain ⟨rfl, -⟩ : w1 = w2 ∧ s1 = s2 := by simpa using h
    exact h1

theorem unsaved_wounds_nonneg {u : Unit} {damage rend : Int}
    {mortal ward_ignore : Bool} {s : DiceStream} {w : Int} {sw : DiceStream}
    (hd : 0 ≤ damage)
    (h : u.unsaved_wounds damage rend mortal ward_ignore s = some (w, sw)) :
    0 ≤ w := by
  unfold Unit.unsaved_wounds at h
  split at h
  · exact absurd h (by simp)
  · rename_i w1 s1 heq1
    split at h
    · exact absurd h (by simp)
    · rename_i w2 s2 heq2
      have h1 := save_stage_nonneg hd heq1
      have h2 := ward_stage_nonneg h1 heq2
      obtain ⟨rfl, -⟩ :
          (if u.beacon_of_protection then max 0 (w2 - 1) else w2) = w ∧
            s2 = sw := by simpa using h
      by_cases hb : u.beacon_of_protection = true
      · rw [if_pos hb]
        exact le_max_left _ _
      · rw [if_neg hb]
        exact h2

theorem take_damage_some_inv {u : Unit} {damage rend : Int}
    {mortal ward_ignore : Bool} {s : DiceStream} {a : Int} {u' : Unit}
    {s' : DiceStream}
    (h : u.take_damage damage rend mortal ward_ignore s = some (a, u', s')) :
    u.unsaved_wounds damage rend mortal ward_ignore s = some (a, s') ∧
      u' = u.apply_unsaved a := by
  unfold Unit.take_damage at h
  split at h
  · exact absurd h (by simp)
  · rename_i wts s2 heq
    obtain ⟨rfl, rfl, rfl⟩ : wts = a ∧ u.apply_unsaved wts = u' ∧ s2 = s' := by
      simpa using h
    exact ⟨heq, rfl⟩

theorem apply_unsaved_total_wounds (u : Unit) (wts : Int) :
    (u.apply_unsaved wts).total_wounds = u.total_wounds - wts := rfl

theorem apply_unsaved_models_nonneg (u : Unit) (wts : Int) :
    0 ≤ (u.apply_unsaved wts).models := le_max_left 0 _

/-! ## C2: damage intake is monotone, model count is clamped -/

/-- C2 (amended): for non-negative damage, `take_damage` never increases
`total_wounds` and the returned unsaved amount is non-negative, and the
model count is clamped at 0 at the mutation — but `total_wounds` itself is
not floored and may be left negative (see the counterexample). -/
theorem take_damage_monotone (u : Unit) (damage rend : Int)
    (mortal ward_ignore : Bool) (s : DiceStream) (a : Int) (u' : Unit)
    (s' : DiceStream) (hd : 0 ≤ damage)
    (h : u.take_damage damage rend mortal ward_ignore s = some (a, u', s')) :
    u'.total_wounds ≤ u.total_wounds ∧ 0 ≤ u'.models ∧ 0 ≤ a := by
  obtain ⟨hw, rfl⟩ := take_damage_some_inv h
  have ha := unsaved_wounds_nonneg hd hw
  refine ⟨?_, apply_unsaved_models_nonneg u a, ha⟩
  rw [apply_unsaved_total_wounds]
  omega

/-- C2 counterexample: 5 mortal damage on a 1-wound unit leaves
`total_wounds = -4`, so remaining health is not `≥ 0` after the call — the
claim's flooring of remaining health fails on the code. -/
theorem total_wounds_negative_cex :
    (uPlain.take_damage 5 0 true false (sAll 1)).map
      (fun r => r.2.1.total_wounds) = some (-4) ∧ (-4 : Int) < 0 :=
  ⟨by decide, by decide⟩

/-- C2 witness: 1 mortal damage on the plain unit. -/
theorem take_damage_monotone_witness :
    (uPlain.apply_unsaved 1).total_wounds ≤ uPlain.total_wounds ∧
      0 ≤ (uPlain.apply_unsaved 1).models ∧ 0 ≤ (1 : Int) :=
  take_damage_monotone uPlain 1 0 true false (sAll 1) 1
    (uPlain.apply_unsaved 1) ((sAll 1).advance 1) (by decide) rfl

/-! ## C4: the alive flag tracks the model count -/

theorem ceil_models_nonpos {tw wpm : Int} (hw : 1 ≤ wpm) (htw : tw ≤ 0) :
    tw.fdiv wpm + (if 0 < tw.fmod wpm then 1 else 0) ≤ 0 := by
  rw [Int.fdiv_eq_ediv _ (by omega), Int.fmod_eq_emod _ (by omega)]
  have heq := Int.ediv_add_emod tw wpm
  have hr0 : 0 ≤ tw % wpm := Int.emod_nonneg tw (by omega)
  set q := tw / wpm with hq
  set r := tw % wpm with hr'
  by_cases hr : 0 < r
  · rw [if_pos hr]
    by_contra hcon
    push_neg at hcon
    have hq0 : 0 ≤ q := by omega
    have : 0 ≤ wpm * q := mul_nonneg (by omega) hq0
    omega
  · rw [if_neg hr]
    by_contra hcon
    push_neg at hcon
    have hq1 : 1 ≤ q := by omega
    have : wpm ≤ wpm * q := le_mul_of_one_le_right (by omega) hq1
    omega

theorem ceil_models_pos {tw wpm : Int} (hw : 1 ≤ wpm) (htw : 0 < tw) :
    0 < tw.fdiv wpm + (if 0 < tw.fmod wpm then 1 else 0) := by
  rw [Int.fdiv_eq_ediv _ (by omega), Int.fmod_eq_emod _ (by omega)]
  have heq := Int.ediv_add_emod tw wpm
  have hr0 : 0 ≤ tw % wpm := Int.emod_nonneg tw (by omega)
  have hrw : tw % wpm < wpm := Int.emod_lt_of_pos tw (by omega)
  set q := tw / wpm with hq
  set r := tw % wpm with hr'
  by_cases hr : 0 < r
  · rw [if_pos hr]
    by_contra hcon
    push_neg at hcon
    have hq1 : q ≤ -1 := by omega
    have h1 : wpm * q ≤ wpm * (-1) := mul_le_mul_of_nonneg_left hq1 (by omega)
    have h2 : wpm * (-1) = -wpm := by ring
    omega
  · rw [if_neg hr]
    by_contra hcon
    push_neg at hcon
    have hq0 : q ≤ 0 := by omega
    have h1 : wpm * q ≤ wpm * 0 := mul_le_mul_of_nonneg_left hq0 (by omega)
    have h2 : wpm * 0 = 0 := by ring
    omega

/-- C4: from any state satisfying the invariant "dead implies no remaining
health" (true of every freshly constructed live unit), a successful
`take_damage` call with non-negative damage leaves `unit_alive = false`
exactly when the model count is 0, and re-establishes the invariant, so
the equivalence holds after every call of a chain. -/
theorem alive_iff_models_zero (u : Unit) (damage rend : Int)
    (mortal ward_ignore : Bool) (s : DiceStream) (a : Int) (u' : Unit)
    (s' : DiceStream) (hwpm : 1 ≤ u.wounds_per_model)
    (hdead : u.unit_alive = false → u.total_wounds ≤ 0) (hd : 0 ≤ damage)
    (h : u.take_damage damage rend mortal ward_ignore s = some (a, u', s')) :
    (u'.unit_alive = false ↔ u'.models = 0) ∧
      (u'.unit_alive = false → u'.total_wounds ≤ 0) := by
  obtain ⟨hw, rfl⟩ := take_damage_some_inv h
  have ha := unsaved_wounds_nonneg hd hw
  have hM : (u.apply_unsaved a).models =
      max 0 ((u.total_wounds - a).fdiv u.wounds_per_model +
        (if 0 < (u.total_wounds - a).fmod u.wounds_per_model then 1 else 0)) :=
    rfl
  have hA : (u.apply_unsaved a).unit_alive =
      (if (u.apply_unsaved a).models ≤ 0 then false else u.unit_alive) := rfl
  have hT : (u.apply_unsaved a).total_wounds = u.total_wounds - a := rfl
  by_cases hpos : 0 < u.total_wounds - a
  · have hx := ceil_models_pos hwpm hpos
    have hm' : 0 < (u.apply_unsaved a).models := by
      rw [hM]
      exact lt_max_of_lt_right hx
    have halv : (u.apply_unsaved a).unit_alive = u.unit_alive := by
      rw [hA, if_neg (by omega)]
    refine ⟨⟨fun hf => ?_, fun hf => by omega⟩, fun hf => ?_⟩
    · rw [halv] at hf
      have := hdead hf
      omega
    · rw [halv] at hf
      have := hdead hf
      rw [hT]
      omega
  · have hx := @ceil_models_nonpos (u.total_wounds - a) u.wounds_per_model
      hwpm (by omega)
    have hm' : (u.apply_unsaved a).models = 0 := by
      rw [hM]
      exact max_eq_left hx
    have halv : (u.apply_unsaved a).unit_alive = false := by
      rw [hA, if_pos (by omega)]
    refine ⟨by rw [halv, hm']; simp, fun hf => ?_⟩
    rw [hT]
    omega

/-- C4 witness: the plain 1-model unit killed by 1 mortal damage ends with
`unit_alive = false` and 0 models. -/
theorem alive_iff_models_zero_witness :
    ((uPlain.apply_unsaved 1).unit_alive = false ↔
      (uPlain.apply_unsaved 1).models = 0) ∧
    ((uPlain.apply_unsaved 1).unit_alive = false →
      (uPlain.apply_unsaved 1).total_wounds ≤ 0) :=
  alive_iff_models_zero uPlain 1 0 true false (sAll 1) 1
    (uPlain.apply_unsaved 1) ((sAll 1).advance 1) (by decide) (by decide)
    (by decide) rfl

/-! ## C1 and C6: the mortal damage path -/

theorem mortal_warded_eq (u : Unit) (damage rend : Int) (s : DiceStream)
    (hb : u.beacon_of_protection = false) (hwz : u.ward_save ≠ 0)
    (hd : 0 ≤ damage) :
    u.take_damage damage rend true false s =
      some ((countHits (s.take damage.toNat) u.ward_save
          RollDirection.BELOW : Int),
        u.apply_unsaved (countHits (s.take damage.toNat) u.ward_save
          RollDirection.BELOW : Int),
        s.advance damage.toNat) := by
  have hrd := roll_dice_pos damage u.ward_save RollDirection.BELOW s hd
  simp [Unit.take_damage, Unit.unsaved_wounds, Unit.save_stage,
    Unit.ward_stage, hwz, hb, hrd]

/-- C1 (amended): on the mortal path the save roll is skipped entirely and
rend is ignored; for a unit without the damage-reduction aura and with the
no-ward sentinel `ward_save = 7`, a non-negative mortal damage N comes
through as exactly N whatever the save threshold is.  (As stated the claim
is false: the ward roll DOES run on the mortal path, so a unit with a real
ward 1..6 can return less than N — see the counterexample.) -/
theorem mortal_no_ward_exact (u : Unit) (damage rend : Int) (s : DiceStream)
    (hb : u.beacon_of_protection = false) (hw : u.ward_save = 7)
    (hd : 0 ≤ damage) (hs : ValidStream s) :
    u.take_damage damage rend true false s =
      some (damage, u.apply_unsaved damage, s.advance damage.toNat) := by
  have h7 : u.ward_save ≠ 0 := by
    rw [hw]
    decide
  rw [mortal_warded_eq u damage rend s hb h7 hd, hw,
    countHits_below_all _ _ (valid_take_lt7 s hs _), take_length,
    Int.toNat_of_nonneg hd]

/-- C1 counterexample: a unit with ward save 5 and no aura receives 1
mortal damage while the ward die shows 6; the call returns 0, not the
claimed exact N = 1 — a ward roll does occur on the mortal path. -/
theorem mortal_no_ward_exact_cex :
    (uWard5.take_damage 1 0 true false (sAll 6)).map (fun r => r.1) ≠
      some 1 := by
  decide

/-- C1 witness: 2 mortal damage on the no-ward plain unit with dice
showing 3 comes through as exactly 2. -/
theorem mortal_no_ward_exact_witness :
    uPlain.take_damage 2 0 true false (sAll 3) =
      some (2, uPlain.apply_unsaved 2, (sAll 3).advance 2) :=
  mortal_no_ward_exact uPlain 2 0 (sAll 3) rfl rfl (by decide)
    (fun _ => ⟨by show (1 : Int) ≤ 3; decide, by show (3 : Int) ≤ 6; decide⟩)

/-- C6 (amended): for a unit with a configured ward save 1..6 and no
damage-reduction aura, mortal damage bypasses save and rend entirely, but
the ward roll is applied with the full incoming amount as the dice pool:
the returned unsaved amount is the count of those ward dice that rolled
below the ward threshold, and exactly `damage` dice are consumed.  (As
stated the claim is false for units with the aura, which subtract one more
from the ward result — see the counterexample.) -/
theorem mortal_ward_roll_counts (u : Unit) (damage rend : Int)
    (s : DiceStream) (hb : u.beacon_of_protection = false)
    (hw1 : 1 ≤ u.ward_save) (hw6 : u.ward_save ≤ 6) (hd : 0 ≤ damage) :
    u.take_damage damage rend true false s =
      some ((countHits (s.take damage.toNat) u.ward_save
          RollDirection.BELOW : Int),
        u.apply_unsaved (countHits (s.take damage.toNat) u.ward_save
          RollDirection.BELOW : Int),
        s.advance damage.toNat) :=
  mortal_warded_eq u damage rend s hb (by omega) hd

/-- C6 counterexample: with the beacon-of-protection aura present the
returned unsaved amount is NOT the ward-dice count: 1 mortal damage whose
ward die shows 1 (below ward 5, count 1) returns 0. -/
theorem mortal_ward_roll_counts_cex :
    (uWardBeacon.take_damage 1 0 true false (sAll 1)).map (fun r => r.1) ≠
      some ((countHits ((sAll 1).take 1) uWardBeacon.ward_save
        RollDirection.BELOW : Int)) := by
  decide

/-- C6 witness: 1 mortal damage on the ward-5 unit with the die showing 6
is fully warded: the returned amount is the below-count 0. -/
theorem mortal_ward_roll_counts_witness :
    uWard5.take_damage 1 0 true false (sAll 6) =
      some (0, uWard5.apply_unsaved 0, (sAll 6).advance 1) :=
  mortal_ward_roll_counts uWard5 1 0 (sAll 6) rfl (by decide) (by decide)
    (by decide)

/-! ## C9: the ward sentinel 7 is equivalent to skipping the ward -/

theorem roll_dice_below7 (w1 : Int) (s1 : DiceStream) (hs : ValidStream s1)
    (hw : 0 ≤ w1) :
    roll_dice w1 7 RollDirection.BELOW s1 = some (w1, s1.advance w1.toNat) := by
  rw [roll_dice_pos _ _ _ _ hw,
    countHits_below_all _ _ (valid_take_lt7 s1 hs _), take_length,
    Int.toNat_of_nonneg hw]

/-- C9: with the no-ward sentinel `ward_save = 7` and valid die faces, a
`take_damage` call with `ward_ignore = false` returns the same unsaved
amount and the same updated unit as the variant that skips the ward stage
entirely: the truthy sentinel makes the ward roll run, but every face 1..6
is below 7, so the ward roll is the identity on the damage count. -/
theorem ward_sentinel_skip_equiv (u : Unit) (damage rend : Int)
    (mortal : Bool) (s : DiceStream) (hw : u.ward_save = 7) (hd : 0 ≤ damage)
    (hs : ValidStream s) :
    (u.take_damage damage rend mortal false s).map (fun r => (r.1, r.2.1)) =
      (u.take_damage_skipping_ward damage rend mortal s).map
        (fun r => (r.1, r.2.1)) := by
  have h7 : u.ward_save ≠ 0 := by
    rw [hw]
    decide
  obtain ⟨w1, s1, hsave, hw1, hvals⟩ : ∃ w1 s1,
      u.save_stage damage rend mortal s = some (w1, s1) ∧ 0 ≤ w1 ∧
        s1.vals = s.vals := by
    unfold Unit.save_stage
    cases mortal
    · by_cases he : u.ethereal = true
      · rw [if_neg (by simp), if_pos he, roll_dice_pos _ _ _ _ hd]
        exact ⟨_, _, rfl, Int.natCast_nonneg _, rfl⟩
      · rw [if_neg (by simp), if_neg he, roll_dice_pos _ _ _ _ hd]
        exact ⟨_, _, rfl, Int.natCast_nonneg _, rfl⟩
    · rw [if_pos rfl]
      exact ⟨_, _, rfl, hd, rfl⟩
  have hs1 : ValidStream s1 := by
    intro i
    rw [hvals]
    exact hs i
  have hwstage : u.ward_stage w1 false s1 = some (w1, s1.advance w1.toNat) := by
    unfold Unit.ward_stage
    rw [if_pos ⟨h7, rfl⟩, hw, roll_dice_below7 w1 s1 hs1 hw1]
  simp only [Unit.take_damage, Unit.unsaved_wounds,
    Unit.take_damage_skipping_ward, hsave, hwstage, Option.map_some']

/-- C9 witness: 2 normal damage with rend 1 against the sentinel-7 unit,
dice showing 3, gives the same result and state as the skip-ward
variant. -/
theorem ward_sentinel_skip_equiv_witness :
    (uPlain.take_damage 2 1 false false (sAll 3)).map
        (fun r => (r.1, r.2.1)) =
      (uPlain.take_damage_skipping_ward 2 1 false (sAll 3)).map
        (fun r => (r.1, r.2.1)) :=
  ward_sentinel_skip_equiv uPlain 2 1 false (sAll 3) rfl (by decide)
    (fun _ => ⟨by show (1 : Int) ≤ 3; decide, by show (3 : Int) ≤ 6; decide⟩)

/-! ## C5 and C10: the crit-mortals mode of the attack resolver -/

theorem hit_stage_some_nonneg {u : Unit} {w : Weapon} {hit_modifier : Int}
    {s : DiceStream} {r : Int × List DamageEvent × DiceStream}
    (h : hit_stage u w hit_modifier s = some r) :
    0 ≤ weapon_attack_count u w := by
  unfold hit_stage at h
  by_cases he : w.crit_explode = true
  · rw [if_pos he] at h
    split at h
    · exact absurd h (by simp)
    · rename_i hits crits s1 heq
      exact (roll_dice_crit_some_inv heq).1
  · rw [if_neg he] at h
    by_cases hcm : w.crit_mortals = true
    · rw [if_pos hcm] at h
      split at h
      · exact absurd h (by simp)
      · rename_i hits crits s1 heq
        exact (roll_dice_crit_some_inv heq).1
    · rw [if_neg hcm] at h
      split at h
      · exact absurd h (by simp)
      · rename_i hits s1 heq
        exact (roll_dice_some_inv heq).1

theorem hit_stage_crit_mortals (u : Unit) (w : Weapon) (hit_modifier : Int)
    (s : DiceStream) (h1 : w.crit_mortals = true) (h2 : w.crit_explode = false)
    (hn : 0 ≤ weapon_attack_count u w) :
    hit_stage u w hit_modifier s = some
      ((countHits (s.take (weapon_attack_count u w).toNat)
          (w.to_hit - hit_modifier) RollDirection.MATCH : Int) -
        (countHits (s.take (weapon_attack_count u w).toNat)
          w.crit_threshold RollDirection.MATCH : Int),
      (if 0 < (countHits (s.take (weapon_attack_count u w).toNat)
          w.crit_threshold RollDirection.MATCH : Int) then
        [DamageEvent.mk
          ((countHits (s.take (weapon_attack_count u w).toNat)
            w.crit_threshold RollDirection.MATCH : Int) * w.damage)
          0 DamageType.mortal]
      else []),
      s.advance (weapon_attack_count u w).toNat) := by
  have hrc := roll_dice_crit_pos (weapon_attack_count u w)
    (w.to_hit - hit_modifier) w.crit_threshold RollDirection.MATCH s hn
  simp [hit_stage, h1, h2, hrc]

/-- C5: for a weapon in the bonus-unavoidable-damage mode (`crit_mortals`,
not `crit_explode`), a successful per-weapon attack resolution emits —
exactly when the crit count is positive — one leading damage event
`(crits * damage, rend 0, mortal)`, and the wound roll is taken over the
landed-hits pool MINUS the crit count (the dice consumed after the hit
batch are `hits - crits` many), so a critical hit never also enters the
normal wound roll. -/
theorem crit_mortals_event_structure (u : Unit) (w : Weapon)
    (hit_modifier wound_modifier : Int) (s : DiceStream)
    (evs : List DamageEvent) (s' : DiceStream) (h1 : w.crit_mortals = true)
    (h2 : w.crit_explode = false)
    (h : u.deal_damage_weapon w hit_modifier wound_modifier s =
      some (evs, s')) :
    evs =
      (if 0 < (countHits (s.take (weapon_attack_count u w).toNat)
          w.crit_threshold RollDirection.MATCH : Int) then
        [DamageEvent.mk
          ((countHits (s.take (weapon_attack_count u w).toNat)
            w.crit_threshold RollDirection.MATCH : Int) * w.damage)
          0 DamageType.mortal]
      else []) ++
      (if 0 < (countHits
          ((s.advance (weapon_attack_count u w).toNat).take
            ((countHits (s.take (weapon_attack_count u w).toNat)
                (w.to_hit - hit_modifier) RollDirection.MATCH : Int) -
              (countHits (s.take (weapon_attack_count u w).toNat)
                w.crit_threshold RollDirection.MATCH : Int)).toNat)
          (w.to_wound - wound_modifier) RollDirection.MATCH : Int) then
        [DamageEvent.mk
          ((countHits
            ((s.advance (weapon_attack_count u w).toNat).take
              ((countHits (s.take (weapon_attack_count u w).toNat)
                  (w.to_hit - hit_modifier) RollDirection.MATCH : Int) -
                (countHits (s.take (weapon_attack_count u w).toNat)
                  w.crit_threshold RollDirection.MATCH : Int)).toNat)
            (w.to_wound - wound_modifier) RollDirection.MATCH : Int) *
            w.damage)
          w.rend DamageType.normal]
      else []) := by
  unfold Unit.deal_damage_weapon at h
  split at h
  · exact absurd h (by simp)
  · rename_i al mev s1 heq
    have hn := hit_stage_some_nonneg heq
    rw [hit_stage_crit_mortals u w hit_modifier s h1 h2 hn] at heq
    obtain ⟨rfl, rfl, rfl⟩ :
        _ = al ∧ _ = mev ∧ s.advance (weapon_attack_count u w).toNat = s1 := by
      simpa using heq
    split at h
    · exact absurd h (by simp)
    · rename_i wl s2 heqw
      obtain ⟨-, rfl, -⟩ := roll_dice_some_inv heqw
      obtain ⟨rfl, -⟩ : _ = evs ∧ s2 = s' := by simpa using h
      simp

/-- C5 witness: one attack plus the leader bonus, both dice showing 6
against hit target 4 with crit threshold 6: both hits are crits, the
resolver emits the single mortal event `(2 * 2, 0, mortal)` and the wound
roll runs over 0 dice. -/
theorem crit_mortals_event_structure_witness :
    ([DamageEvent.mk 4 0 DamageType.mortal] : List DamageEvent) =
      (if 0 < (countHits ((sAll 6).take 2) wCM.crit_threshold
          RollDirection.MATCH : Int) then
        [DamageEvent.mk
          ((countHits ((sAll 6).take 2) wCM.crit_threshold
            RollDirection.MATCH : Int) * wCM.damage) 0 DamageType.mortal]
      else []) ++
      (if 0 < (countHits (((sAll 6).advance 2).take 0)
          (wCM.to_wound - 0) RollDirection.MATCH : Int) then
        [DamageEvent.mk
          ((countHits (((sAll 6).advance 2).take 0)
            (wCM.to_wound - 0) RollDirection.MATCH : Int) * wCM.damage)
          wCM.rend DamageType.normal]
      else []) :=
  crit_mortals_event_structure uCM wCM 0 0 (sAll 6)
    [DamageEvent.mk 4 0 DamageType.mortal]
    (((sAll 6).advance 2).advance 0) rfl rfl rfl

/-- C10: when the crit threshold is at least the effective hit target,
every die counted as a crit is also a hit, so the crit count never exceeds
the landed-hits count and the per-weapon resolution always succeeds: the
wound roll is invoked with a non-negative dice count and the dice engine's
failure on a negative count is unreachable. -/
theorem crit_mortals_wound_roll_safe (u : Unit) (w : Weapon)
    (hit_modifier wound_modifier : Int) (s : DiceStream)
    (h1 : w.crit_mortals = true) (h2 : w.crit_explode = false)
    (hth : w.to_hit - hit_modifier ≤ w.crit_threshold)
    (hmods : 0 ≤ u.models) (hatt : 0 ≤ w.attacks) :
    countHits (s.take (weapon_attack_count u w).toNat) w.crit_threshold
        RollDirection.MATCH ≤
      countHits (s.take (weapon_attack_count u w).toNat)
        (w.to_hit - hit_modifier) RollDirection.MATCH ∧
    (u.deal_damage_weapon w hit_modifier wound_modifier s).isSome = true := by
  have hn : 0 ≤ weapon_attack_count u w := by
    unfold weapon_attack_count
    have h0 : 0 ≤ w.attacks * u.models := mul_nonneg hatt hmods
    by_cases hc : u.has_leader ∧ w.companion = false
    · rw [if_pos hc]
      omega
    · rw [if_neg hc]
      omega
  have hmono : countHits (s.take (weapon_attack_count u w).toNat)
      w.crit_threshold RollDirection.MATCH ≤
        countHits (s.take (weapon_attack_count u w).toNat)
          (w.to_hit - hit_modifier) RollDirection.MATCH := by
    simp only [countHits]
    rw [← List.countP_eq_length_filter, ← List.countP_eq_length_filter]
    apply List.countP_mono_left
    intro x _ hpx
    simp only [decide_eq_true_eq] at hpx ⊢
    omega
  refine ⟨hmono, ?_⟩
  have hsub : 0 ≤ (countHits (s.take (weapon_attack_count u w).toNat)
      (w.to_hit - hit_modifier) RollDirection.MATCH : Int) -
        (countHits (s.take (weapon_attack_count u w).toNat)
          w.crit_threshold RollDirection.MATCH : Int) := by
    have : ((countHits (s.take (weapon_attack_count u w).toNat)
        w.crit_threshold RollDirection.MATCH : Nat) : Int) ≤
          ((countHits (s.take (weapon_attack_count u w).toNat)
            (w.to_hit - hit_modifier) RollDirection.MATCH : Nat) : Int) := by
      exact_mod_cast hmono
    omega
  have hhit := hit_stage_crit_mortals u w hit_modifier s h1 h2 hn
  have hwound := roll_dice_pos _ (w.to_wound - wound_modifier)
    RollDirection.MATCH (s.advance (weapon_attack_count u w).toNat) hsub
  simp [Unit.deal_damage_weapon, hhit, hwound]

/-- C10 witness: the concrete crit-mortals unit attacking with both dice
showing 6 has crit count 2 ≤ hit count 2 and the resolution succeeds. -/
theorem crit_mortals_wound_roll_safe_witness :
    countHits ((sAll 6).take 2) wCM.crit_threshold RollDirection.MATCH ≤
      countHits ((sAll 6).take 2) (wCM.to_hit - 0) RollDirection.MATCH ∧
    (uCM.deal_damage_weapon wCM 0 0 (sAll 6)).isSome = true :=
  crit_mortals_wound_roll_safe uCM wCM 0 0 (sAll 6) rfl rfl (by decide)
    (by decide) (by decide)

/-! ## C7 and C8: the Monte Carlo driver -/

theorem run_trial_flag {attacker defender : Unit} {p : ℚ} {a b c d : Int}
    {draw : ℚ} {s : DiceStream} {aw dw : Int} {inv : Bool} {s' : DiceStream}
    (h : run_trial attacker defender p a b c d draw s =
      some (aw, dw, inv, s')) :
    inv = decide (draw < p) := by
  unfold run_trial at h
  by_cases hlt : draw < p
  · rw [if_pos hlt] at h
    split at h
    · exact absurd h (by simp)
    · rename_i att1 s1 heq1
      split at h
      · exact absurd h (by simp)
      · rename_i def1 s2 heq2
        simp only [Option.some.injEq, Prod.mk.injEq] at h
        obtain ⟨-, -, rfl, -⟩ := h
        simp [hlt]
  · rw [if_neg hlt] at h
    split at h
    · exact absurd h (by simp)
    · rename_i def1 s1 heq1
      split at h
      · exact absurd h (by simp)
      · rename_i att1 s2 heq2
        simp only [Option.some.injEq, Prod.mk.injEq] at h
        obtain ⟨-, -, rfl, -⟩ := h
        simp [hlt]

theorem sim_trials_all (attacker defender : Unit) (p : ℚ)
    (a b c d : Int) (draws : Nat → ℚ) (hall : ∀ i, draws i < p) :
    ∀ (n i : Nat) (s : DiceStream) (aw dw : List Int) (inv : Nat),
      sim_trials attacker defender p a b c d draws i n s =
        some (aw, dw, inv) → inv = n := by
  intro n
  induction n with
  | zero =>
    intro i s aw dw inv h
    simp only [sim_trials, Option.some.injEq, Prod.mk.injEq] at h
    omega
  | succ n ih =>
    intro i s aw dw inv h
    unfold sim_trials at h
    split at h
    · exact absurd h (by simp)
    · rename_i aw1 dw1 b1 s1 heq1
      split at h
      · exact absurd h (by simp)
      · rename_i awr dwr invr heq2
        simp only [Option.some.injEq, Prod.mk.injEq] at h
        obtain ⟨-, -, hinv⟩ := h
        have hb : b1 = true := by
          rw [run_trial_flag heq1]
          simp [hall i]
        have hr := ih (i + 1) s1 awr dwr invr heq2
        rw [hb] at hinv
        simp only [if_true] at hinv
        omega

theorem sim_trials_none (attacker defender : Unit) (p : ℚ)
    (a b c d : Int) (draws : Nat → ℚ) (hnone : ∀ i, ¬ draws i < p) :
    ∀ (n i : Nat) (s : DiceStream) (aw dw : List Int) (inv : Nat),
      sim_trials attacker defender p a b c d draws i n s =
        some (aw, dw, inv) → inv = 0 := by
  intro n
  induction n with
  | zero =>
    intro i s aw dw inv h
    simp only [sim_trials, Option.some.injEq, Prod.mk.injEq] at h
    omega
  | succ n ih =>
    intro i s aw dw inv h
    unfold sim_trials at h
    split at h
    · exact absurd h (by simp)
    · rename_i aw1 dw1 b1 s1 heq1
      split at h
      · exact absurd h (by simp)
      · rename_i awr dwr invr heq2
        simp only [Option.some.injEq, Prod.mk.injEq] at h
        obtain ⟨-, -, hinv⟩ := h
        have hb : b1 = false := by
          rw [run_trial_flag heq1]
          simp [hnone i]
        have hr := ih (i + 1) s1 awr dwr invr heq2
        rw [hb] at hinv
        simp at hinv
        omega

/-- C7: when every per-trial uniform draw lies in [0, 1), a successful
simulation run with inversion probability 1 counts every trial as
inverted (`inverted_fights = iterations`), and a run with probability 0
counts none: the draw inverts the order exactly when it is strictly below
the configured probability. -/
theorem inversion_count_exact (attacker defender : Unit) (n : Nat)
    (ahm awm dhm dwm : Int) (order_draws : Nat → ℚ) (s1 s0 : DiceStream)
    (aw1 dw1 : List Int) (inv1 : Nat) (aw0 dw0 : List Int) (inv0 : Nat)
    (hdraws : ∀ i, 0 ≤ order_draws i ∧ order_draws i < 1)
    (h1 : combat_simulation attacker defender 1 n ahm awm dhm dwm
      order_draws s1 = some (aw1, dw1, inv1))
    (h0 : combat_simulation attacker defender 0 n ahm awm dhm dwm
      order_draws s0 = some (aw0, dw0, inv0)) :
    inv1 = n ∧ inv0 = 0 :=
  ⟨sim_trials_all attacker defender 1 ahm awm dhm dwm order_draws
      (fun i => (hdraws i).2) n 0 s1 aw1 dw1 inv1 h1,
    sim_trials_none attacker defender 0 ahm awm dhm dwm order_draws
      (fun i => not_lt.mpr (hdraws i).1) n 0 s0 aw0 dw0 inv0 h0⟩

/-- C7 witness: one trial of two weaponless units: probability 1 yields
inversion count 1, probability 0 yields count 0. -/
theorem inversion_count_exact_witness :
    combat_simulation uNW uNW 1 1 0 0 0 0 (fun _ => 0) (sAll 1) =
        some ([2], [2], 1) ∧
      ((1 : Nat) = 1 ∧ (0 : Nat) = 0) :=
  ⟨by decide,
    inversion_count_exact uNW uNW 1 0 0 0 0 (fun _ => 0) (sAll 1) (sAll 1)
      [2] [2] 1 [2] [2] 0
      (fun _ => ⟨by show (0 : ℚ) ≤ 0; decide, by show (0 : ℚ) < 1; decide⟩)
      (by decide) (by decide)⟩

/-- C8 (code-bug evidence): two executions of `combat_simulation` with
identical program inputs but different underlying die outcomes produce
different terminal health series — the entry point has no seed input that
determines the outcomes, so fixed-seed reproducibility fails on the code
(`roll_dice` falls back to a fresh default generator on every call and
initiative uses the global `np.random` state). -/
theorem entropy_changes_output :
    combat_simulation uAtt uDef 0 1 0 0 0 0 (fun _ => 0) (sAll 6) ≠
      combat_simulation uAtt uDef 0 1 0 0 0 0 (fun _ => 0) (sAll 1) := by
  decide

end CombatSimulator
